import Mathlib

/-!
Verification of the MPIN strength checker (notebook `mpin_notebook.ipynb`).

The Python source defines two pure functions:
* `_generate_demographic_pins(date_obj, length)` — the set of digit strings
  derivable from a calendar date at the given PIN length;
* `check_mpin_strength(mpin, demographics)` — validates the PIN, consults the
  fixed common-PIN tables and the demographic pattern sets, and returns a
  strength verdict together with the sorted list of triggered reason codes.

This file embeds both, together with the constant tables, and proves the
spec's claims about them.  Strings are modelled by Lean `String`.  Python's
`str.isdigit` — which accepts every Unicode digit character, not only the
decimal digits — is embedded exactly on the code points below 256 and
under-approximated above (see `pyCharIsDigit`).  The Python `set` of
reasons is embedded as a duplicate-free list together with proofs that the
classifier's output is independent of accumulation order; Python's string
comparison (used by `sorted`) is embedded explicitly as lexicographic
comparison of code points.
-/

namespace MPIN

/-- A calendar date as carried by Python's `datetime.date`: year, month, day,
with no time component. -/
structure Date where
  year : Nat
  month : Nat
  day : Nat
deriving DecidableEq, Repr

/-- The bounds `datetime.date` enforces on its fields (`MINYEAR = 1`,
`MAXYEAR = 9999`, months `1..12`, days `1..31`). -/
def Date.Valid (d : Date) : Prop :=
  1 ≤ d.year ∧ d.year ≤ 9999 ∧ 1 ≤ d.month ∧ d.month ≤ 12 ∧ 1 ≤ d.day ∧ d.day ≤ 31

/-- Python's zero-padding format `f"{n:0wd}"`: the decimal rendering of `n`,
left-padded with `'0'` up to a minimum width `w`. -/
def padZero (w : Nat) (n : Nat) : String :=
  let s := toString n
  String.mk (List.replicate (w - s.length) '0') ++ s

/-- Python string repetition `s * k`. -/
def strMul (s : String) : Nat → String
  | 0 => ""
  | k + 1 => s ++ strMul s k

/-- The fixed table `COMMONLY_USED_4_DIGIT_PINS` from the source. -/
def COMMONLY_USED_4_DIGIT_PINS : Finset String :=
  {"1234", "9876", "1111", "2222", "3333", "4444", "5555", "6666", "7777",
   "8888", "9999", "0000", "1122", "1212", "2580", "1990", "1991", "1992",
   "1993", "1994", "1995", "1996", "1997", "1998", "1999", "2000", "2001",
   "2002", "2003", "2004", "2005"}

/-- The fixed table `COMMONLY_USED_6_DIGIT_PINS` from the source. -/
def COMMONLY_USED_6_DIGIT_PINS : Finset String :=
  {"123456", "987654", "111111", "222222", "333333", "444444", "555555",
   "666666", "777777", "888888", "999999", "000000", "123123", "112233"}

/-- Embedding of `_generate_demographic_pins(date_obj, length)`.  The `none`
case mirrors the `if not date_obj: return set()` guard (a `datetime.date` is
always truthy in Python, `None` is falsy).  `day * 2` in the source is string
repetition, embedded as `strMul day 2`. -/
def generate_demographic_pins (dateObj : Option Date) (length : Nat) : Finset String :=
  match dateObj with
  | none => ∅
  | some dobj =>
    let day := padZero 2 dobj.day
    let month := padZero 2 dobj.month
    let year_yy := padZero 2 (dobj.year % 100)
    let year_yyyy := padZero 4 dobj.year
    if length = 4 then
      {day ++ month, month ++ day, year_yyyy, day ++ year_yy, year_yy ++ day,
       month ++ year_yy, year_yy ++ month, strMul day 2, strMul month 2,
       strMul year_yy 2}
    else if length = 6 then
      {day ++ month ++ year_yy, month ++ day ++ year_yy,
       year_yy ++ month ++ day, year_yy ++ day ++ month}
    else ∅

/-- The three demographic roles iterated by `check_mpin_strength`
(the keys of its `demographic_map`, in insertion order). -/
inductive Role where
  | dob_self
  | dob_spouse
  | anniversary
deriving DecidableEq, Repr

/-- The demographics map: an optional calendar date for each role.  A Python
dict lacking a key, or mapping it to `None`, is a `none` field (`.get`
returns `None` and a `datetime.date` value is always truthy). -/
structure Demographics where
  dob_self : Option Date
  dob_spouse : Option Date
  anniversary : Option Date
deriving DecidableEq, Repr

/-- `demographics.get(key)` for the three keys of `demographic_map`. -/
def Demographics.get (d : Demographics) : Role → Option Date
  | .dob_self => d.dob_self
  | .dob_spouse => d.dob_spouse
  | .anniversary => d.anniversary

/-- The role-to-reason-code association `demographic_map` of the source. -/
def reasonCode : Role → String
  | .dob_self => "DEMOGRAPHIC_DOB_SELF"
  | .dob_spouse => "DEMOGRAPHIC_DOB_SPOUSE"
  | .anniversary => "DEMOGRAPHIC_ANNIVERSARY"

/-- The iteration order of `demographic_map.items()` (Python dicts preserve
insertion order). -/
def roleOrder : List Role := [.dob_self, .dob_spouse, .anniversary]

/-- Python's per-character `isdigit` test (`Py_UNICODE_ISDIGIT`): true for
characters whose Unicode numeric type is Digit or Decimal — more than the
decimal digits.  This embedding is exact for every code point below 256,
where the accepted characters are precisely the decimal digits 0-9 and the
superscript digits ¹ (U+00B9), ² (U+00B2), ³ (U+00B3); code points 256 and
above (further Unicode digits, e.g. Arabic-Indic ones) are under-approximated
as non-digits, so validation theorems carry a below-256 hypothesis delimiting
the exact domain. -/
def pyCharIsDigit (c : Char) : Bool :=
  c.isDigit || c.toNat == 0xB2 || c.toNat == 0xB3 || c.toNat == 0xB9

/-- Python's `mpin.isdigit()`: true iff the string is non-empty and every
character passes the per-character digit test. -/
def pyIsDigit (s : String) : Bool := !s.data.isEmpty && s.data.all pyCharIsDigit

/-- Lexicographic comparison of two code-point lists: Python's `<` on
strings, character by character on code points. -/
def charListLt : List Char → List Char → Bool
  | _, [] => false
  | [], _ :: _ => true
  | a :: as, b :: bs =>
    if a.toNat < b.toNat then true
    else if b.toNat < a.toNat then false
    else charListLt as bs

/-- Python's `<` on strings: lexicographic on code points. -/
def pyStrLt (s t : String) : Bool := charListLt s.data t.data

/-- The non-strict companion of `pyStrLt`, the order `sorted` sorts by. -/
def pyStrLe (s t : String) : Prop := pyStrLt t s = false

instance : DecidableRel pyStrLe := fun s t =>
  inferInstanceAs (Decidable (pyStrLt t s = false))

/-- Python's `sorted` on a list of strings: the list rearranged into
ascending lexicographic code-point order (embedded as insertion sort). -/
def pySorted (l : List String) : List String := List.insertionSort pyStrLe l

/-- The return value of `check_mpin_strength`: the dict
`{"strength": ..., "reasons": sorted(list(reasons))}`. -/
structure ClassificationResult where
  strength : String
  reasons : List String
deriving DecidableEq, Repr

deriving instance DecidableEq for Except

/-- Adding one element to the reason set (`reasons.add(...)` in the source):
a no-op when already present.  The Python `set` is embedded as a
duplicate-free list; order-irrelevance is proved below. -/
def addReason (x : String) (acc : List String) : List String :=
  if x ∈ acc then acc else acc ++ [x]

/-- One iteration of the `for key, reason_code in demographic_map.items()`
loop: if the role's date is present and the PIN is in its pattern set, add
the reason code to the accumulated set. -/
def roleStep (mpin : String) (d : Demographics) (acc : List String) (r : Role) :
    List String :=
  match d.get r with
  | some dt =>
    if mpin ∈ generate_demographic_pins (some dt) mpin.length then
      addReason (reasonCode r) acc
    else acc
  | none => acc

/-- The reason set accumulated by `check_mpin_strength` after validation,
with the loop's role order as an explicit parameter (the source fixes it to
`roleOrder`).  Starts from the COMMONLY_USED check against the table
matching the PIN's length. -/
def reasonListOrder (order : List Role) (mpin : String)
    (demographics : Option Demographics) : List String :=
  let common_pins :=
    if mpin.length = 4 then COMMONLY_USED_4_DIGIT_PINS else COMMONLY_USED_6_DIGIT_PINS
  let reasons0 : List String :=
    if mpin ∈ common_pins then ["COMMONLY_USED"] else []
  match demographics with
  | some d => order.foldl (roleStep mpin d) reasons0
  | none => reasons0

/-- The reason set of `check_mpin_strength`, at the source's role order. -/
def reasonList (mpin : String) (demographics : Option Demographics) : List String :=
  reasonListOrder roleOrder mpin demographics

/-- Embedding of `check_mpin_strength(mpin, demographics)` with the loop's
role order as an explicit parameter.  Raising `ValueError` is embedded as
`Except.error`; `demographics = none` is Python's `None` default (an empty
dict is falsy too, and behaves identically to a `Demographics` record with
all fields `none`). -/
def check_mpin_strength_order (order : List Role) (mpin : String)
    (demographics : Option Demographics) : Except String ClassificationResult :=
  if ¬ pyIsDigit mpin ∨ (mpin.length ≠ 4 ∧ mpin.length ≠ 6) then
    .error "MPIN must be a 4 or 6-digit string."
  else
    let reasons := reasonListOrder order mpin demographics
    .ok { strength := if reasons = [] then "STRONG" else "WEAK",
          reasons := pySorted reasons }

/-- `check_mpin_strength` itself: the loop iterates `demographic_map` in its
insertion order `roleOrder`. -/
def check_mpin_strength (mpin : String) (demographics : Option Demographics) :
    Except String ClassificationResult :=
  check_mpin_strength_order roleOrder mpin demographics

/-! ### Spec-side definitions

These two definitions follow the spec's wording of the reason-set
construction (claim C1): a COMMONLY_USED contribution from the table
matching the PIN's length, and one independent contribution per demographic
role.  They are compared with the source-side reason list below. -/

/-- Spec wording: "Select the common-PIN table matching `pin`'s length; if
`pin` is a member, add COMMONLY_USED to the reason set." -/
def commonReasonSpec (mpin : String) : Finset String :=
  if mpin ∈ (if mpin.length = 4 then COMMONLY_USED_4_DIGIT_PINS
             else COMMONLY_USED_6_DIGIT_PINS)
  then {"COMMONLY_USED"} else ∅

/-- Spec wording: the contribution of one demographic role — its reason code
when the role's date is present and the PIN lies in the pattern set generated
from that date at the PIN's length, nothing otherwise. -/
def roleReasonSpec (mpin : String) (demographics : Option Demographics) (r : Role) :
    Finset String :=
  match demographics with
  | none => ∅
  | some d =>
    match d.get r with
    | some dt =>
      if mpin ∈ generate_demographic_pins (some dt) mpin.length then {reasonCode r}
      else ∅
    | none => ∅

/-! ### The lexicographic order: basic facts -/

/-- Characters with equal code points are equal. -/
lemma charEq_of_toNat_eq {a b : Char} (h : a.toNat = b.toNat) : a = b :=
  Char.eq_of_val_eq (UInt32.toNat.inj h)

/-- Lexicographic comparison is asymmetric. -/
lemma charListLt_asymm : ∀ (a b : List Char),
    charListLt a b = true → charListLt b a = false := by
  intro a
  induction a with
  | nil =>
    intro b h
    cases b with
    | nil => simp [charListLt] at h
    | cons c cs => simp [charListLt]
  | cons x xs ih =>
    intro b h
    cases b with
    | nil => simp [charListLt] at h
    | cons y ys =>
      simp only [charListLt] at h ⊢
      by_cases hxy : x.toNat < y.toNat
      · rw [if_neg (by omega), if_pos hxy]
      · rw [if_neg hxy] at h
        by_cases hyx : y.toNat < x.toNat
        · rw [if_pos hyx] at h
          exact absurd h (by simp)
        · rw [if_neg hyx] at h
          rw [if_neg hyx, if_neg hxy]
          exact ih ys h

/-- Two lists neither of which lexicographically precedes the other are
equal. -/
lemma charListLt_connect : ∀ (a b : List Char),
    charListLt a b = false → charListLt b a = false → a = b := by
  intro a
  induction a with
  | nil =>
    intro b h₁ _
    cases b with
    | nil => rfl
    | cons c cs => simp [charListLt] at h₁
  | cons x xs ih =>
    intro b h₁ h₂
    cases b with
    | nil => simp [charListLt] at h₂
    | cons y ys =>
      simp only [charListLt] at h₁ h₂
      by_cases hxy : x.toNat < y.toNat
      · rw [if_pos hxy] at h₁
        exact absurd h₁ (by simp)
      · by_cases hyx : y.toNat < x.toNat
        · rw [if_pos hyx] at h₂
          exact absurd h₂ (by simp)
        · rw [if_neg hxy, if_neg hyx] at h₁
          rw [if_neg hyx, if_neg hxy] at h₂
          rw [charEq_of_toNat_eq (a := x) (b := y) (by omega), ih ys h₁ h₂]

/-- Lexicographic comparison is transitive. -/
lemma charListLt_trans : ∀ (a b c : List Char),
    charListLt a b = true → charListLt b c = true → charListLt a c = true := by
  intro a
  induction a with
  | nil =>
    intro b c h₁ h₂
    cases b with
    | nil => simp [charListLt] at h₁
    | cons y ys =>
      cases c with
      | nil => simp [charListLt] at h₂
      | cons z zs => simp [charListLt]
  | cons x xs ih =>
    intro b c h₁ h₂
    cases b with
    | nil => simp [charListLt] at h₁
    | cons y ys =>
      cases c with
      | nil => simp [charListLt] at h₂
      | cons z zs =>
        simp only [charListLt] at h₁ h₂ ⊢
        by_cases hxy : x.toNat < y.toNat
        · by_cases hyz : y.toNat < z.toNat
          · rw [if_pos (by omega)]
          · rw [if_neg hyz] at h₂
            by_cases hzy : z.toNat < y.toNat
            · rw [if_pos hzy] at h₂
              exact absurd h₂ (by simp)
            · rw [if_pos (by omega)]
        · rw [if_neg hxy] at h₁
          by_cases hyx : y.toNat < x.toNat
          · rw [if_pos hyx] at h₁
            exact absurd h₁ (by simp)
          · rw [if_neg hyx] at h₁
            by_cases hyz : y.toNat < z.toNat
            · rw [if_pos (by omega)]
            · rw [if_neg hyz] at h₂
              by_cases hzy : z.toNat < y.toNat
              · rw [if_pos hzy] at h₂
                exact absurd h₂ (by simp)
              · rw [if_neg hzy] at h₂
                rw [if_neg (by omega), if_neg (by omega)]
                exact ih ys zs h₁ h₂

/-- Strings neither of which precedes the other are equal. -/
lemma pyStrLt_connect {s t : String} (h₁ : pyStrLt s t = false)
    (h₂ : pyStrLt t s = false) : s = t :=
  String.ext (charListLt_connect s.data t.data h₁ h₂)

instance : IsTotal String pyStrLe := by
  constructor
  intro a b
  cases h : pyStrLt b a with
  | false => exact Or.inl h
  | true => exact Or.inr (charListLt_asymm _ _ h)

instance : IsTrans String pyStrLe := by
  constructor
  intro a b c hab hbc
  have hab' : pyStrLt b a = false := hab
  have hbc' : pyStrLt c b = false := hbc
  show pyStrLt c a = false
  cases hca : pyStrLt c a with
  | false => rfl
  | true =>
    exfalso
    cases hba : pyStrLt a b with
    | false =>
      have he : a = b := pyStrLt_connect hba hab'
      rw [he] at hca
      rw [hca] at hbc'
      exact Bool.noConfusion hbc'
    | true =>
      have h2 : pyStrLt c b = true := charListLt_trans c.data a.data b.data hca hba
      rw [h2] at hbc'
      exact Bool.noConfusion hbc'

instance : IsAntisymm String pyStrLe := by
  constructor
  intro a b hab hba
  exact pyStrLt_connect hba hab

/-! ### Facts about `pySorted` -/

/-- Sorting only rearranges the list. -/
lemma pySorted_perm (l : List String) : (pySorted l).Perm l :=
  List.perm_insertionSort pyStrLe l

/-- The output of the sort is sorted with respect to `pyStrLe`. -/
lemma pySorted_sorted (l : List String) : List.Sorted pyStrLe (pySorted l) :=
  List.sorted_insertionSort pyStrLe l

/-- Sorting two rearrangements of the same elements yields identical
lists. -/
lemma pySorted_eq_of_perm {l₁ l₂ : List String} (h : l₁.Perm l₂) :
    pySorted l₁ = pySorted l₂ :=
  List.eq_of_perm_of_sorted
    ((pySorted_perm l₁).trans (h.trans (pySorted_perm l₂).symm))
    (pySorted_sorted l₁) (pySorted_sorted l₂)

/-- The sorted list is empty exactly when the input is. -/
lemma pySorted_eq_nil_iff (l : List String) : pySorted l = [] ↔ l = [] := by
  constructor
  · intro h
    exact List.Perm.eq_nil (h ▸ (pySorted_perm l).symm)
  · intro h
    rw [h]
    rfl

/-- Sorting preserves the underlying set of elements. -/
lemma pySorted_toFinset (l : List String) : (pySorted l).toFinset = l.toFinset :=
  Finset.ext fun a => by
    simp [List.mem_toFinset, (pySorted_perm l).mem_iff]

/-- A sorted list without duplicates is strictly increasing. -/
lemma pairwise_lt_of_sorted_nodup {l : List String}
    (hs : List.Sorted pyStrLe l) (hn : l.Nodup) :
    List.Pairwise (fun a b => pyStrLt a b = true) l := by
  refine (List.Pairwise.and hs hn).imp ?_
  rintro a b ⟨hle, hne⟩
  cases hab : pyStrLt a b with
  | true => rfl
  | false => exact absurd (pyStrLt_connect hab hle) hne

/-! ### Facts about the reason accumulation -/

/-- Adding a reason inserts it into the underlying set. -/
lemma addReason_toFinset (x : String) (acc : List String) :
    (addReason x acc).toFinset = insert x acc.toFinset := by
  unfold addReason
  split
  · next hmem => exact (Finset.insert_eq_self.mpr (List.mem_toFinset.mpr hmem)).symm
  · next hmem =>
    rw [List.toFinset_append]
    simp only [List.toFinset_cons, List.toFinset_nil, insert_emptyc_eq]
    rw [Finset.insert_eq, Finset.union_comm]

/-- Adding a reason never creates a duplicate. -/
lemma addReason_nodup {acc : List String} (h : acc.Nodup) (x : String) :
    (addReason x acc).Nodup := by
  unfold addReason
  split
  · exact h
  · next hmem => simp [List.nodup_append, h, hmem]

/-- Adding a reason respects rearrangement of the accumulator. -/
lemma addReason_perm {acc₁ acc₂ : List String} (h : acc₁.Perm acc₂) (x : String) :
    (addReason x acc₁).Perm (addReason x acc₂) := by
  unfold addReason
  by_cases hm : x ∈ acc₁
  · rw [if_pos hm, if_pos (h.mem_iff.mp hm)]
    exact h
  · rw [if_neg hm, if_neg (fun hc => hm (h.mem_iff.mpr hc))]
    exact h.append (List.Perm.refl [x])

/-- Two reason additions commute up to rearrangement. -/
lemma addReason_swap (x y : String) (acc : List String) :
    (addReason x (addReason y acc)).Perm (addReason y (addReason x acc)) := by
  by_cases hxy : x = y
  · subst hxy
    exact List.Perm.refl _
  · by_cases hx : x ∈ acc <;> by_cases hy : y ∈ acc
    · have h1 : addReason y acc = acc := by simp [addReason, hy]
      have h2 : addReason x acc = acc := by simp [addReason, hx]
      rw [h1, h2, h1]
    · have h1 : addReason y acc = acc ++ [y] := by simp [addReason, hy]
      have h2 : addReason x acc = acc := by simp [addReason, hx]
      have h3 : addReason x (acc ++ [y]) = acc ++ [y] := by simp [addReason, hx]
      rw [h1, h2, h1, h3]
    · have h1 : addReason x acc = acc ++ [x] := by simp [addReason, hx]
      have h2 : addReason y acc = acc := by simp [addReason, hy]
      have h3 : addReason y (acc ++ [x]) = acc ++ [x] := by simp [addReason, hy]
      rw [h2, h1, h3]
    · have hyx : y ≠ x := fun hc => hxy hc.symm
      have h1 : addReason y acc = acc ++ [y] := by simp [addReason, hy]
      have h2 : addReason x acc = acc ++ [x] := by simp [addReason, hx]
      have h3 : addReason x (acc ++ [y]) = acc ++ [y] ++ [x] := by
        simp [addReason, hx, hxy]
      have h4 : addReason y (acc ++ [x]) = acc ++ [x] ++ [y] := by
        simp [addReason, hy, hyx]
      rw [h1, h3, h2, h4]
      simpa [List.append_assoc] using
        List.Perm.append_left acc (List.Perm.swap x y [])

/-- One loop iteration respects rearrangement of the accumulator. -/
lemma roleStep_perm {acc₁ acc₂ : List String} (h : acc₁.Perm acc₂)
    (mpin : String) (d : Demographics) (r : Role) :
    (roleStep mpin d acc₁ r).Perm (roleStep mpin d acc₂ r) := by
  unfold roleStep
  cases d.get r with
  | none => exact h
  | some dt =>
    dsimp only
    split_ifs
    · exact addReason_perm h _
    · exact h

/-- One loop iteration preserves freedom from duplicates. -/
lemma roleStep_nodup {acc : List String} (h : acc.Nodup)
    (mpin : String) (d : Demographics) (r : Role) :
    (roleStep mpin d acc r).Nodup := by
  unfold roleStep
  cases d.get r with
  | none => exact h
  | some dt =>
    dsimp only
    split_ifs
    · exact addReason_nodup h _
    · exact h

/-- Two loop iterations commute up to rearrangement. -/
lemma roleStep_swap (mpin : String) (d : Demographics) (acc : List String)
    (r₁ r₂ : Role) :
    (roleStep mpin d (roleStep mpin d acc r₁) r₂).Perm
      (roleStep mpin d (roleStep mpin d acc r₂) r₁) := by
  unfold roleStep
  cases d.get r₁ with
  | none =>
    cases d.get r₂ with
    | none => exact List.Perm.refl _
    | some dt₂ => dsimp only; split_ifs <;> exact List.Perm.refl _
  | some dt₁ =>
    cases d.get r₂ with
    | none => dsimp only; split_ifs <;> exact List.Perm.refl _
    | some dt₂ =>
      dsimp only
      split_ifs <;>
        first
        | exact List.Perm.refl _
        | exact addReason_swap _ _ _

/-- The loop respects rearrangement of its starting accumulator. -/
lemma foldl_roleStep_perm_acc (mpin : String) (d : Demographics)
    (l : List Role) {acc₁ acc₂ : List String} (h : acc₁.Perm acc₂) :
    (l.foldl (roleStep mpin d) acc₁).Perm (l.foldl (roleStep mpin d) acc₂) := by
  induction l generalizing acc₁ acc₂ with
  | nil => exact h
  | cons r rs ih => exact ih (roleStep_perm h mpin d r)

/-- The loop's result is, up to rearrangement, independent of the role
order. -/
lemma foldl_roleStep_perm (mpin : String) (d : Demographics)
    {l₁ l₂ : List Role} (p : l₁.Perm l₂) (acc : List String) :
    (l₁.foldl (roleStep mpin d) acc).Perm (l₂.foldl (roleStep mpin d) acc) := by
  induction p using List.Perm.recOnSwap' generalizing acc with
  | nil => exact List.Perm.refl _
  | cons x p ih => exact ih _
  | swap' x y p ih =>
    simp only [List.foldl_cons]
    exact (foldl_roleStep_perm_acc mpin d _ (roleStep_swap mpin d acc y x)).trans (ih _)
  | trans p₁ p₂ ih₁ ih₂ => exact (ih₁ acc).trans (ih₂ acc)

/-- The loop preserves freedom from duplicates. -/
lemma foldl_roleStep_nodup (mpin : String) (d : Demographics)
    (l : List Role) {acc : List String} (h : acc.Nodup) :
    (l.foldl (roleStep mpin d) acc).Nodup := by
  induction l generalizing acc with
  | nil => exact h
  | cons r rs ih => exact ih (roleStep_nodup h mpin d r)

/-- The accumulated reason list never contains duplicates. -/
lemma reasonListOrder_nodup (order : List Role) (mpin : String)
    (demo : Option Demographics) : (reasonListOrder order mpin demo).Nodup := by
  unfold reasonListOrder
  have h0 : (if mpin ∈ (if mpin.length = 4 then COMMONLY_USED_4_DIGIT_PINS
      else COMMONLY_USED_6_DIGIT_PINS) then ["COMMONLY_USED"] else ([] : List String)).Nodup := by
    split <;> split <;> simp
  cases demo with
  | none => exact h0
  | some d => exact foldl_roleStep_nodup mpin d order h0

/-- The accumulated reason list is, up to rearrangement, independent of the
role order. -/
lemma reasonListOrder_perm (order : List Role) (h : order.Perm roleOrder)
    (mpin : String) (demo : Option Demographics) :
    (reasonListOrder order mpin demo).Perm (reasonList mpin demo) := by
  unfold reasonList reasonListOrder
  cases demo with
  | none => exact List.Perm.refl _
  | some d => exact foldl_roleStep_perm mpin d h _

/-- One loop iteration adds exactly the role's spec contribution to the
underlying set. -/
lemma roleStep_toFinset (mpin : String) (d : Demographics) (acc : List String)
    (r : Role) :
    (roleStep mpin d acc r).toFinset =
      acc.toFinset ∪ roleReasonSpec mpin (some d) r := by
  unfold roleStep roleReasonSpec
  dsimp only
  cases d.get r with
  | none => simp
  | some dt =>
    dsimp only
    split_ifs
    · rw [addReason_toFinset, Finset.insert_eq, Finset.union_comm]
    · simp

/-- The COMMONLY_USED seed of the loop carries exactly the common-table
contribution of the spec. -/
lemma reasons0_toFinset (mpin : String) :
    (if mpin ∈ (if mpin.length = 4 then COMMONLY_USED_4_DIGIT_PINS
        else COMMONLY_USED_6_DIGIT_PINS) then ["COMMONLY_USED"]
      else ([] : List String)).toFinset = commonReasonSpec mpin := by
  unfold commonReasonSpec
  split <;> split <;> simp

/-- The reason list computed by the classifier's loop carries exactly the
union described by the spec: the common-table contribution joined with the
three role contributions. -/
lemma reasonList_toFinset_eq_spec (mpin : String) (demo : Option Demographics) :
    (reasonList mpin demo).toFinset =
      commonReasonSpec mpin ∪ roleReasonSpec mpin demo .dob_self ∪
        roleReasonSpec mpin demo .dob_spouse ∪ roleReasonSpec mpin demo .anniversary := by
  cases demo with
  | none =>
    show (if mpin ∈ (if mpin.length = 4 then COMMONLY_USED_4_DIGIT_PINS
        else COMMONLY_USED_6_DIGIT_PINS) then ["COMMONLY_USED"]
      else ([] : List String)).toFinset = _
    rw [reasons0_toFinset]
    simp [roleReasonSpec]
  | some d =>
    show (roleStep mpin d (roleStep mpin d (roleStep mpin d
        (if mpin ∈ (if mpin.length = 4 then COMMONLY_USED_4_DIGIT_PINS
            else COMMONLY_USED_6_DIGIT_PINS) then ["COMMONLY_USED"]
          else ([] : List String)) .dob_self) .dob_spouse) .anniversary).toFinset = _
    rw [roleStep_toFinset, roleStep_toFinset, roleStep_toFinset, reasons0_toFinset]

/-- A PIN made of isdigit-accepted characters, of length 4 or 6, passes
Python's `isdigit` test. -/
lemma pyIsDigit_of_pychars (mpin : String)
    (hdig : ∀ c ∈ mpin.data, pyCharIsDigit c = true)
    (hlen : mpin.length = 4 ∨ mpin.length = 6) : pyIsDigit mpin = true := by
  have hne : mpin.data ≠ [] := by
    intro h
    have : mpin.length = 0 := by simp [String.length, h]
    omega
  simp only [pyIsDigit, List.all_eq_true, List.isEmpty_iff, Bool.and_eq_true,
    Bool.not_eq_true', decide_eq_false_iff_not]
  exact ⟨by simpa using hne, hdig⟩

/-- A PIN made of decimal digits, of length 4 or 6, passes Python's
`isdigit` test. -/
lemma pyIsDigit_of_digits (mpin : String)
    (hdig : ∀ c ∈ mpin.data, c.isDigit = true)
    (hlen : mpin.length = 4 ∨ mpin.length = 6) : pyIsDigit mpin = true :=
  pyIsDigit_of_pychars mpin (fun c hc => by simp [pyCharIsDigit, hdig c hc]) hlen

/-- A string passing the embedded `isdigit` test is made of isdigit-accepted
characters. -/
lemma pychars_of_pyIsDigit (mpin : String) (h : pyIsDigit mpin = true) :
    ∀ c ∈ mpin.data, pyCharIsDigit c = true := by
  simp only [pyIsDigit, Bool.and_eq_true, List.all_eq_true] at h
  exact h.2

/-- Shape of every successful run at any role order: success happens exactly
on valid PINs, and the result is built from the accumulated reason list. -/
lemma check_order_ok_iff (order : List Role) (mpin : String)
    (demo : Option Demographics) (res : ClassificationResult) :
    check_mpin_strength_order order mpin demo = .ok res ↔
      ((pyIsDigit mpin = true ∧ (mpin.length = 4 ∨ mpin.length = 6)) ∧
        res = ⟨if reasonListOrder order mpin demo = [] then "STRONG" else "WEAK",
               pySorted (reasonListOrder order mpin demo)⟩) := by
  unfold check_mpin_strength_order
  split
  next hc =>
    simp only [reduceCtorEq, false_iff]
    rintro ⟨⟨h1, h2⟩, -⟩
    rcases hc with hc | hc
    · exact hc h1
    · rcases h2 with h2 | h2
      · exact hc.1 h2
      · exact hc.2 h2
  next hc =>
    push_neg at hc
    have hval : pyIsDigit mpin = true ∧ (mpin.length = 4 ∨ mpin.length = 6) := by
      rcases hc with ⟨h1, h2⟩
      refine ⟨by simpa using h1, ?_⟩
      by_cases h4 : mpin.length = 4
      · exact Or.inl h4
      · exact Or.inr (h2 h4)
    simp only [Except.ok.injEq]
    constructor
    · intro h
      exact ⟨hval, h.symm⟩
    · rintro ⟨-, rfl⟩
      rfl

/-- Shape of every successful run of `check_mpin_strength`. -/
lemma check_ok_iff (mpin : String) (demo : Option Demographics)
    (res : ClassificationResult) :
    check_mpin_strength mpin demo = .ok res ↔
      ((pyIsDigit mpin = true ∧ (mpin.length = 4 ∨ mpin.length = 6)) ∧
        res = ⟨if reasonList mpin demo = [] then "STRONG" else "WEAK",
               pySorted (reasonList mpin demo)⟩) :=
  check_order_ok_iff roleOrder mpin demo res

/-! ### Claims -/

/-- C1: for every valid PIN (all decimal digits, length 4 or 6) and every
demographics map, the reason set returned by `check_mpin_strength` is exactly
the union of the COMMONLY_USED contribution from the table matching the PIN's
length and, for each role whose date is present, that role's reason code when
the PIN lies in the pattern set generated from the date at the PIN's length;
in particular, when every contribution is empty the verdict is STRONG with an
empty reason list. -/
theorem c1_reason_set_characterization (mpin : String) (demo : Option Demographics)
    (hdig : ∀ c ∈ mpin.data, c.isDigit = true)
    (hlen : mpin.length = 4 ∨ mpin.length = 6) :
    ∃ res, check_mpin_strength mpin demo = .ok res ∧
      res.reasons.toFinset =
        commonReasonSpec mpin ∪ roleReasonSpec mpin demo .dob_self ∪
          roleReasonSpec mpin demo .dob_spouse ∪ roleReasonSpec mpin demo .anniversary ∧
      ((commonReasonSpec mpin = ∅ ∧ ∀ r : Role, roleReasonSpec mpin demo r = ∅) →
        res.strength = "STRONG" ∧ res.reasons = []) := by
  refine ⟨_, (check_ok_iff mpin demo _).mpr
    ⟨⟨pyIsDigit_of_digits mpin hdig hlen, hlen⟩, rfl⟩, ?_, ?_⟩
  · show (pySorted (reasonList mpin demo)).toFinset = _
    rw [pySorted_toFinset, reasonList_toFinset_eq_spec]
  · rintro ⟨hcom, hrole⟩
    have hrs : (reasonList mpin demo).toFinset = ∅ := by
      rw [reasonList_toFinset_eq_spec, hcom, hrole, hrole, hrole]
      simp
    have hl : reasonList mpin demo = [] := by
      cases hll : reasonList mpin demo with
      | nil => rfl
      | cons a as =>
        rw [hll] at hrs
        simp at hrs
    constructor
    · show (if reasonList mpin demo = [] then "STRONG" else "WEAK") = "STRONG"
      rw [if_pos hl]
    · show pySorted (reasonList mpin demo) = []
      rw [hl]
      rfl

/-- Witness for C1: the PIN "1992" with a self date of 1992-08-15 runs
successfully and its reason set matches the spec union. -/
theorem c1_reason_set_characterization_witness :
    (∀ c ∈ "1992".data, c.isDigit = true) ∧
      ("1992".length = 4 ∨ "1992".length = 6) ∧
      ∃ res, check_mpin_strength "1992" (some ⟨some ⟨1992, 8, 15⟩, none, none⟩) = .ok res ∧
        res.reasons.toFinset =
          commonReasonSpec "1992" ∪
            roleReasonSpec "1992" (some ⟨some ⟨1992, 8, 15⟩, none, none⟩) .dob_self ∪
            roleReasonSpec "1992" (some ⟨some ⟨1992, 8, 15⟩, none, none⟩) .dob_spouse ∪
            roleReasonSpec "1992" (some ⟨some ⟨1992, 8, 15⟩, none, none⟩) .anniversary ∧
        ((commonReasonSpec "1992" = ∅ ∧
            ∀ r : Role, roleReasonSpec "1992" (some ⟨some ⟨1992, 8, 15⟩, none, none⟩) r = ∅) →
          res.strength = "STRONG" ∧ res.reasons = []) :=
  ⟨by decide, by decide,
    c1_reason_set_characterization "1992" (some ⟨some ⟨1992, 8, 15⟩, none, none⟩)
      (by decide) (by decide)⟩

/-- Counterexample to C2 as stated: the PIN "²²²²" — four superscript-two
characters (U+00B2) — is not made of decimal digit characters and has length
4, yet the checker raises no error and returns a STRONG classification,
because `str.isdigit` also accepts non-decimal Unicode digit characters. -/
theorem c2_invalid_input_counterexample :
    (¬ ∀ c ∈ "²²²²".data, c.isDigit = true) ∧ "²²²²".length = 4 ∧
      check_mpin_strength "²²²²" none = .ok ⟨"STRONG", []⟩ :=
  ⟨by decide, by decide, by decide⟩

/-- C2 (amended): for every PIN whose code points lie below 256 — the domain
on which the embedding of `str.isdigit` is exact, which the hypothesis
`hlatin` delimits without being needed by the model-internal proof —
`check_mpin_strength` raises INVALID_INPUT exactly when the PIN is not made
solely of isdigit-accepted characters (the decimal digits 0-9 or the
superscript digits ¹ ² ³) or its length is neither 4 nor 6 (`Except.error`
is the embedded raise, so no classification result is produced on failure).
The original decimal-digits-only reading is refuted by
`c2_invalid_input_counterexample`. -/
theorem c2_invalid_input_iff (mpin : String) (demo : Option Demographics)
    (hlatin : ∀ c ∈ mpin.data, c.toNat < 256) :
    (∃ e, check_mpin_strength mpin demo = .error e) ↔
      ¬ ((∀ c ∈ mpin.data, pyCharIsDigit c = true) ∧
          (mpin.length = 4 ∨ mpin.length = 6)) := by
  unfold check_mpin_strength check_mpin_strength_order
  split
  next hc =>
    constructor
    · intro _
      rintro ⟨hdig, hlen⟩
      have hb := pyIsDigit_of_pychars mpin hdig hlen
      rcases hc with hc | hc
      · exact hc hb
      · rcases hlen with h | h
        · exact hc.1 h
        · exact hc.2 h
    · intro _
      exact ⟨_, rfl⟩
  next hc =>
    push_neg at hc
    obtain ⟨h1, h2⟩ := hc
    have hlen : mpin.length = 4 ∨ mpin.length = 6 := by
      by_cases h4 : mpin.length = 4
      · exact Or.inl h4
      · exact Or.inr (h2 h4)
    constructor
    · rintro ⟨e, he⟩
      exact absurd he (by simp)
    · intro hcon
      exact absurd ⟨pychars_of_pyIsDigit mpin (by simpa using h1), hlen⟩ hcon

/-- Witness for the amended C2: the Latin-1 hypothesis holds at the PIN
"123", where the classifier indeed raises (wrong length). -/
theorem c2_invalid_input_iff_witness :
    (∀ c ∈ "123".data, c.toNat < 256) ∧
      ((∃ e, check_mpin_strength "123" none = .error e) ↔
        ¬ ((∀ c ∈ "123".data, pyCharIsDigit c = true) ∧
            ("123".length = 4 ∨ "123".length = 6))) :=
  ⟨by decide, c2_invalid_input_iff "123" none (by decide)⟩

/-- C3: for every date, the pattern set at length 4 is exactly the ten
enumerated day/month/year combinations (`day * 2` in the source being the
doubled string dd ++ dd, and similarly for mm and yy). -/
theorem c3_patterns_length4 (d : Date) :
    generate_demographic_pins (some d) 4 =
      {padZero 2 d.day ++ padZero 2 d.month, padZero 2 d.month ++ padZero 2 d.day,
       padZero 4 d.year, padZero 2 d.day ++ padZero 2 (d.year % 100),
       padZero 2 (d.year % 100) ++ padZero 2 d.day,
       padZero 2 d.month ++ padZero 2 (d.year % 100),
       padZero 2 (d.year % 100) ++ padZero 2 d.month,
       padZero 2 d.day ++ padZero 2 d.day,
       padZero 2 d.month ++ padZero 2 d.month,
       padZero 2 (d.year % 100) ++ padZero 2 (d.year % 100)} := by
  have h2 : ∀ s : String, strMul s 2 = s ++ s := by
    intro s
    simp [strMul]
  simp [generate_demographic_pins, h2]

/-- C4: for every date, the pattern set at length 6 is exactly the four
enumerated combinations dd+mm+yy, mm+dd+yy, yy+mm+dd, yy+dd+mm and nothing
else. -/
theorem c4_patterns_length6 (d : Date) :
    generate_demographic_pins (some d) 6 =
      {padZero 2 d.day ++ padZero 2 d.month ++ padZero 2 (d.year % 100),
       padZero 2 d.month ++ padZero 2 d.day ++ padZero 2 (d.year % 100),
       padZero 2 (d.year % 100) ++ padZero 2 d.month ++ padZero 2 d.day,
       padZero 2 (d.year % 100) ++ padZero 2 d.day ++ padZero 2 d.month} := by
  simp [generate_demographic_pins]

/-- C5: on every successful classification, strength is STRONG exactly when
the reason list is empty, and WEAK exactly when it is non-empty. -/
theorem c5_strong_iff_empty (mpin : String) (demo : Option Demographics)
    (res : ClassificationResult) (h : check_mpin_strength mpin demo = .ok res) :
    (res.strength = "STRONG" ↔ res.reasons = []) ∧
      (res.strength = "WEAK" ↔ res.reasons ≠ []) := by
  obtain ⟨-, rfl⟩ := (check_ok_iff mpin demo res).mp h
  by_cases hl : reasonList mpin demo = []
  · have h1 : (if reasonList mpin demo = [] then "STRONG" else "WEAK") = "STRONG" :=
      if_pos hl
    have h2 : pySorted (reasonList mpin demo) = [] := by
      rw [hl]
      rfl
    constructor
    · exact iff_of_true h1 h2
    · refine iff_of_false ?_ ?_
      · intro hcon
        have hcon' : (if reasonList mpin demo = [] then "STRONG" else "WEAK") = "WEAK" := hcon
        rw [h1] at hcon'
        exact absurd hcon' (by decide)
      · intro hcon
        exact hcon h2
  · have h1 : (if reasonList mpin demo = [] then "STRONG" else "WEAK") = "WEAK" :=
      if_neg hl
    have h2 : pySorted (reasonList mpin demo) ≠ [] := fun hc =>
      hl ((pySorted_eq_nil_iff _).mp hc)
    constructor
    · refine iff_of_false ?_ ?_
      · intro hcon
        have hcon' : (if reasonList mpin demo = [] then "STRONG" else "WEAK") = "STRONG" := hcon
        rw [h1] at hcon'
        exact absurd hcon' (by decide)
      · intro hcon
        exact h2 hcon
    · exact iff_of_true h1 h2

/-- Witness for C5: the commonly used PIN "1234" with no demographics. -/
theorem c5_strong_iff_empty_witness :
    check_mpin_strength "1234" none = .ok ⟨"WEAK", ["COMMONLY_USED"]⟩ ∧
      (((⟨"WEAK", ["COMMONLY_USED"]⟩ : ClassificationResult).strength = "STRONG" ↔
          (⟨"WEAK", ["COMMONLY_USED"]⟩ : ClassificationResult).reasons = []) ∧
        ((⟨"WEAK", ["COMMONLY_USED"]⟩ : ClassificationResult).strength = "WEAK" ↔
          (⟨"WEAK", ["COMMONLY_USED"]⟩ : ClassificationResult).reasons ≠ [])) :=
  ⟨by decide, c5_strong_iff_empty "1234" none ⟨"WEAK", ["COMMONLY_USED"]⟩ (by decide)⟩

/-- C6: on every successful classification the reason list is strictly
increasing in the lexicographic code-point order of the tag names (hence
duplicate-free), and the classifier's output does not depend on the order in
which the demographic roles are checked. -/
theorem c6_sorted_and_order_independent (mpin : String) (demo : Option Demographics)
    (res : ClassificationResult) (h : check_mpin_strength mpin demo = .ok res) :
    List.Pairwise (fun a b => pyStrLt a b = true) res.reasons ∧ res.reasons.Nodup ∧
      ∀ order : List Role, order.Perm roleOrder →
        check_mpin_strength_order order mpin demo = check_mpin_strength mpin demo := by
  obtain ⟨hval, rfl⟩ := (check_ok_iff mpin demo res).mp h
  have hnl : (reasonList mpin demo).Nodup := reasonListOrder_nodup roleOrder mpin demo
  have hsn : (pySorted (reasonList mpin demo)).Nodup :=
    ((pySorted_perm _).nodup_iff).mpr hnl
  refine ⟨pairwise_lt_of_sorted_nodup (pySorted_sorted _) hsn, hsn, ?_⟩
  intro order hperm
  have hp : (reasonListOrder order mpin demo).Perm (reasonList mpin demo) :=
    reasonListOrder_perm order hperm mpin demo
  have hnil : reasonListOrder order mpin demo = [] ↔ reasonList mpin demo = [] := by
    constructor
    · intro hn
      have hp' := hp
      rw [hn] at hp'
      exact List.Perm.eq_nil hp'.symm
    · intro hn
      have hp' := hp
      rw [hn] at hp'
      exact List.Perm.eq_nil hp'
  have h₁ : check_mpin_strength_order order mpin demo =
      .ok ⟨if reasonListOrder order mpin demo = [] then "STRONG" else "WEAK",
           pySorted (reasonListOrder order mpin demo)⟩ :=
    (check_order_ok_iff order mpin demo _).mpr ⟨hval, rfl⟩
  have h₂ : check_mpin_strength mpin demo =
      .ok ⟨if reasonList mpin demo = [] then "STRONG" else "WEAK",
           pySorted (reasonList mpin demo)⟩ :=
    (check_ok_iff mpin demo _).mpr ⟨hval, rfl⟩
  rw [h₁, h₂]
  refine congrArg Except.ok ?_
  refine congrArg₂ ClassificationResult.mk ?_ (pySorted_eq_of_perm hp)
  by_cases hl : reasonList mpin demo = []
  · rw [if_pos (hnil.mpr hl), if_pos hl]
  · rw [if_neg (fun hc => hl (hnil.mp hc)), if_neg hl]

/-- Witness for C6: "1111" with all three dates supplied triggers two
reasons, returned in sorted order. -/
theorem c6_sorted_and_order_independent_witness :
    check_mpin_strength "1111"
        (some ⟨some ⟨1992, 8, 15⟩, some ⟨1994, 3, 3⟩, some ⟨2018, 11, 20⟩⟩) =
      .ok ⟨"WEAK", ["COMMONLY_USED", "DEMOGRAPHIC_ANNIVERSARY"]⟩ ∧
      (List.Pairwise (fun a b => pyStrLt a b = true)
          (⟨"WEAK", ["COMMONLY_USED", "DEMOGRAPHIC_ANNIVERSARY"]⟩ :
            ClassificationResult).reasons ∧
        (⟨"WEAK", ["COMMONLY_USED", "DEMOGRAPHIC_ANNIVERSARY"]⟩ :
          ClassificationResult).reasons.Nodup ∧
        ∀ order : List Role, order.Perm roleOrder →
          check_mpin_strength_order order "1111"
              (some ⟨some ⟨1992, 8, 15⟩, some ⟨1994, 3, 3⟩, some ⟨2018, 11, 20⟩⟩) =
            check_mpin_strength "1111"
              (some ⟨some ⟨1992, 8, 15⟩, some ⟨1994, 3, 3⟩, some ⟨2018, 11, 20⟩⟩)) :=
  ⟨by decide,
    c6_sorted_and_order_independent "1111"
      (some ⟨some ⟨1992, 8, 15⟩, some ⟨1994, 3, 3⟩, some ⟨2018, 11, 20⟩⟩)
      ⟨"WEAK", ["COMMONLY_USED", "DEMOGRAPHIC_ANNIVERSARY"]⟩ (by decide)⟩

/-- C7: for every date the pattern set has at most 10 elements at length 4
and at most 4 elements at length 6. -/
theorem c7_pattern_set_size_bounds (d : Date) :
    (generate_demographic_pins (some d) 4).card ≤ 10 ∧
      (generate_demographic_pins (some d) 6).card ≤ 4 := by
  constructor
  · have he : generate_demographic_pins (some d) 4 =
        [padZero 2 d.day ++ padZero 2 d.month, padZero 2 d.month ++ padZero 2 d.day,
         padZero 4 d.year, padZero 2 d.day ++ padZero 2 (d.year % 100),
         padZero 2 (d.year % 100) ++ padZero 2 d.day,
         padZero 2 d.month ++ padZero 2 (d.year % 100),
         padZero 2 (d.year % 100) ++ padZero 2 d.month,
         strMul (padZero 2 d.day) 2, strMul (padZero 2 d.month) 2,
         strMul (padZero 2 (d.year % 100)) 2].toFinset := by
      simp [generate_demographic_pins]
    rw [he]
    exact le_trans (List.toFinset_card_le _) (by simp)
  · have he : generate_demographic_pins (some d) 6 =
        [padZero 2 d.day ++ padZero 2 d.month ++ padZero 2 (d.year % 100),
         padZero 2 d.month ++ padZero 2 d.day ++ padZero 2 (d.year % 100),
         padZero 2 (d.year % 100) ++ padZero 2 d.month ++ padZero 2 d.day,
         padZero 2 (d.year % 100) ++ padZero 2 d.day ++ padZero 2 d.month].toFinset := by
      simp [generate_demographic_pins]
    rw [he]
    exact le_trans (List.toFinset_card_le _) (by simp)

/-- Pointwise extension of demographics maps: every role date present in the
first map is present with the same value in the second. -/
def Demographics.Extends (d d' : Demographics) : Prop :=
  ∀ r : Role, ∀ x : Date, d.get r = some x → d'.get r = some x

/-- A role's spec contribution only grows when the demographics extend. -/
lemma roleReasonSpec_subset_of_extends {d d' : Demographics}
    (hext : Demographics.Extends d d') (mpin : String) (r : Role) :
    roleReasonSpec mpin (some d) r ⊆ roleReasonSpec mpin (some d') r := by
  unfold roleReasonSpec
  dsimp only
  cases hg : d.get r with
  | none => exact Finset.empty_subset _
  | some dt => rw [hext r dt hg]

/-- The classifier's reason set only grows when the demographics extend. -/
lemma reasonList_toFinset_mono {d d' : Demographics}
    (hext : Demographics.Extends d d') (mpin : String) :
    (reasonList mpin (some d)).toFinset ⊆ (reasonList mpin (some d')).toFinset := by
  rw [reasonList_toFinset_eq_spec, reasonList_toFinset_eq_spec]
  refine Finset.union_subset_union (Finset.union_subset_union (Finset.union_subset_union
    (Finset.Subset.refl _) (roleReasonSpec_subset_of_extends hext mpin _))
    (roleReasonSpec_subset_of_extends hext mpin _))
    (roleReasonSpec_subset_of_extends hext mpin _)

/-- C8: for every valid PIN and demographics maps where the second extends
the first (same dates on shared roles, possibly more roles supplied), the
reason set under the first is contained in the reason set under the second;
consequently extra demographic dates can turn STRONG into WEAK but never
WEAK into STRONG. -/
theorem c8_demographics_monotone (mpin : String) (d d' : Demographics)
    (res res' : ClassificationResult) (hext : Demographics.Extends d d')
    (h : check_mpin_strength mpin (some d) = .ok res)
    (h' : check_mpin_strength mpin (some d') = .ok res') :
    (∀ c ∈ res.reasons, c ∈ res'.reasons) ∧
      (res.strength = "WEAK" → res'.strength = "WEAK") := by
  obtain ⟨-, rfl⟩ := (check_ok_iff mpin (some d) res).mp h
  obtain ⟨-, rfl⟩ := (check_ok_iff mpin (some d') res').mp h'
  have hsub := reasonList_toFinset_mono hext mpin
  constructor
  · intro c hc
    have hc1 : c ∈ reasonList mpin (some d) := ((pySorted_perm _).mem_iff).mp hc
    have hc2 : c ∈ (reasonList mpin (some d')).toFinset :=
      hsub (List.mem_toFinset.mpr hc1)
    exact ((pySorted_perm _).mem_iff).mpr (List.mem_toFinset.mp hc2)
  · intro hw
    have hne : reasonList mpin (some d) ≠ [] := by
      intro he
      have hw' : (if reasonList mpin (some d) = [] then "STRONG" else "WEAK") = "WEAK" := hw
      rw [if_pos he] at hw'
      exact absurd hw' (by decide)
    have hne' : reasonList mpin (some d') ≠ [] := by
      intro he'
      cases hl : reasonList mpin (some d) with
      | nil => exact hne hl
      | cons a as =>
        have hmem : a ∈ (reasonList mpin (some d')).toFinset := by
          apply hsub
          rw [hl]
          simp
        rw [he'] at hmem
        simp at hmem
    show (if reasonList mpin (some d') = [] then "STRONG" else "WEAK") = "WEAK"
    rw [if_neg hne']

/-- Witness for C8: adding a self date of 1992-08-15 turns "1508" from
STRONG to WEAK, and the empty reason list is contained in the new one. -/
theorem c8_demographics_monotone_witness :
    Demographics.Extends ⟨none, none, none⟩ ⟨some ⟨1992, 8, 15⟩, none, none⟩ ∧
      check_mpin_strength "1508" (some ⟨none, none, none⟩) = .ok ⟨"STRONG", []⟩ ∧
      check_mpin_strength "1508" (some ⟨some ⟨1992, 8, 15⟩, none, none⟩) =
        .ok ⟨"WEAK", ["DEMOGRAPHIC_DOB_SELF"]⟩ ∧
      ((∀ c ∈ (⟨"STRONG", []⟩ : ClassificationResult).reasons,
          c ∈ (⟨"WEAK", ["DEMOGRAPHIC_DOB_SELF"]⟩ : ClassificationResult).reasons) ∧
        ((⟨"STRONG", ([] : List String)⟩ : ClassificationResult).strength = "WEAK" →
          (⟨"WEAK", ["DEMOGRAPHIC_DOB_SELF"]⟩ : ClassificationResult).strength = "WEAK")) := by
  have hext : Demographics.Extends ⟨none, none, none⟩ ⟨some ⟨1992, 8, 15⟩, none, none⟩ := by
    intro r x hx
    cases r <;> exact Option.noConfusion hx
  exact ⟨hext, by decide, by decide,
    c8_demographics_monotone "1508" ⟨none, none, none⟩ ⟨some ⟨1992, 8, 15⟩, none, none⟩
      ⟨"STRONG", []⟩ ⟨"WEAK", ["DEMOGRAPHIC_DOB_SELF"]⟩ hext (by decide) (by decide)⟩

/-- C9: every all-decimal-digit PIN of length 4 or 6 classifies successfully,
for any demographics (the validation-error branch is unreachable). -/
theorem c9_totality_on_valid_input (mpin : String) (demo : Option Demographics)
    (hdig : ∀ c ∈ mpin.data, c.isDigit = true)
    (hlen : mpin.length = 4 ∨ mpin.length = 6) :
    ∃ res, check_mpin_strength mpin demo = .ok res :=
  ⟨_, (check_ok_iff mpin demo _).mpr ⟨⟨pyIsDigit_of_digits mpin hdig hlen, hlen⟩, rfl⟩⟩

/-- Witness for C9: the 6-digit PIN "150892" with no demographics map. -/
theorem c9_totality_on_valid_input_witness :
    (∀ c ∈ "150892".data, c.isDigit = true) ∧
      ("150892".length = 4 ∨ "150892".length = 6) ∧
      ∃ res, check_mpin_strength "150892" none = .ok res :=
  ⟨by decide, by decide, c9_totality_on_valid_input "150892" none (by decide) (by decide)⟩

/-- C10: for every date and every length other than 4 and 6 the pattern
generator returns the empty set (no pattern and no failure). -/
theorem c10_other_lengths_empty (d : Date) (len : Nat)
    (h4 : len ≠ 4) (h6 : len ≠ 6) :
    generate_demographic_pins (some d) len = ∅ := by
  simp [generate_demographic_pins, h4, h6]

/-- Witness for C10: length 5 on a concrete date yields the empty set. -/
theorem c10_other_lengths_empty_witness :
    (5 ≠ 4) ∧ (5 ≠ 6) ∧
      generate_demographic_pins (some ⟨2018, 11, 20⟩) 5 = ∅ :=
  ⟨by decide, by decide, c10_other_lengths_empty ⟨2018, 11, 20⟩ 5 (by decide) (by decide)⟩

end MPIN
